import Mathlib

/-!
Verification of the NanoLab (PlanShock) per-task temporal alert engine.

This file embeds, as Lean definitions, the alerting core of the repository:

* the urgency classifiers (`calculateLocalPriority` in
  src/src/components/TodoItemCard.tsx, `calculatePriority` in src/src/App.tsx,
  and the estimate-aware variant in src/tmp_TodoItemCard.tsx),
* the threshold scheduler (`evaluateSchedule` in TodoItemCard.tsx),
* the initial-event suppression rule of the alert dispatcher,
* the data-store boundary normalizers (`normalizeEstimatedTime`, `toDateSafe`
  in App.tsx), and
* the single-flight speech queue (`flushSpeechQueue` / `handleSpeak` in
  App.tsx), as a small-step state machine.

Conventions: instants and durations are integer milliseconds (JS `Date.getTime`
values are integers); JS floating-point quantities that are compared after a
division (remaining hours, effort estimates) are modelled as rationals, which
is exact for the integer inputs involved; the three canonical priority strings
of the source are the inductive `Tier` below (the legacy alias strings of the
source are normalized by `toCanonicalPriority` before every comparison the
embedded code performs, so working with canonical tiers is faithful).
-/

namespace NanoLab

/-- The three canonical urgency tiers of the source:
the Korean strings for critical, warning and safe. -/
inductive Tier where
  | safe : Tier
  | warning : Tier
  | critical : Tier
deriving DecidableEq, Repr

/-- HOUR_MS constant of TodoItemCard.tsx (60 * 60 * 1000). -/
def HOUR_MS : Int := 60 * 60 * 1000

/-- HALF_HOUR_MS constant of TodoItemCard.tsx (30 * 60 * 1000). -/
def HALF_HOUR_MS : Int := 30 * 60 * 1000

/-- INITIAL_EVENT_SKIP_WINDOW_MS constant of TodoItemCard.tsx (60 * 1000). -/
def INITIAL_EVENT_SKIP_WINDOW_MS : Int := 60 * 1000

/-- The remaining time before the deadline, in hours, as the classifiers
compute it: (deadline - now) / HOUR_MS. -/
def remainingHoursOf (d now : Int) : ℚ :=
  ((d - now : Int) : ℚ) / (HOUR_MS : ℚ)

/-- The live classifier of src/src/components/TodoItemCard.tsx (lines 74-84).
Its `_estimatedTime` parameter is deliberately unused in the source (note the
underscore): the classification depends only on the remaining time.
`deadline`/`now` are millisecond instants; `none` deadline means no deadline. -/
def calculateLocalPriority (deadline : Option Int) (_estimatedTime : Option ℚ)
    (now : Int) : Tier :=
  match deadline with
  | none => .safe
  | some d =>
    let remainingHours : ℚ := ((d - now : Int) : ℚ) / (HOUR_MS : ℚ)
    if remainingHours ≤ 0 then .critical
    else if remainingHours ≤ 6 then .critical
    else if remainingHours ≤ 24 then .warning
    else .safe

/-- The classifier of src/src/App.tsx (lines 152-160). Identical logic to
`calculateLocalPriority`; its `_estimatedTime` parameter is likewise unused. -/
def calculatePriority (deadline : Option Int) (_estimatedTime : Option ℚ)
    (now : Int) : Tier :=
  match deadline with
  | none => .safe
  | some d =>
    let hoursLeft : ℚ := ((d - now : Int) : ℚ) / (HOUR_MS : ℚ)
    if hoursLeft ≤ 0 then .critical
    else if hoursLeft ≤ 6 then .critical
    else if hoursLeft ≤ 24 then .warning
    else .safe

/-- The estimate-aware classifier variant of src/tmp_TodoItemCard.tsx
(lines 36-50): when an effort estimate is present it uses
remainingHours < estimate and remainingHours < 2 * estimate as the
critical/warning cutoffs. This variant is not referenced by the live
components. -/
def tmpCalculateLocalPriority (deadline : Option Int) (estimatedTime : Option ℚ)
    (now : Int) : Tier :=
  match deadline with
  | none => .safe
  | some d =>
    let remainingHours : ℚ := ((d - now : Int) : ℚ) / (HOUR_MS : ℚ)
    if remainingHours ≤ 0 then .critical
    else
      match estimatedTime with
      | none =>
        if remainingHours ≤ 6 then .critical
        else if remainingHours ≤ 24 then .warning
        else .safe
      | some est =>
        if remainingHours < est then .critical
        else if remainingHours < est * 2 then .warning
        else .safe

/-! Data-store boundary normalizers (src/src/App.tsx). -/

/-- A JavaScript number as seen by `typeof value === 'number'`:
either a finite value, NaN, or an infinity. -/
inductive JSNum where
  | finite (q : ℚ) : JSNum
  | nan : JSNum
  | posInf : JSNum
  | negInf : JSNum
deriving DecidableEq, Repr

/-- A value of the `estimatedTime` field as it can arrive from the store.
The `str` constructor carries the result of the JS coercion
Number(value.trim()): `some q` when that coercion yields a finite number,
`none` otherwise (the coercion itself is a JS primitive, external to the
embedded code). -/
inductive EstimateValue where
  | num (n : JSNum) : EstimateValue
  | str (numericValue : Option ℚ) : EstimateValue
  | nullOrUndefined : EstimateValue
  | other : EstimateValue
deriving DecidableEq

/-- normalizeEstimatedTime of src/src/App.tsx (lines 101-110): finite numbers
are returned unchanged, NaN and infinities fall through every branch to null,
strings are coerced and kept only when finite, everything else becomes null. -/
def normalizeEstimatedTime : EstimateValue → Option ℚ
  | .num (.finite q) => some q
  | .num _ => none
  | .str p => p
  | .nullOrUndefined => none
  | .other => none

/-- A value of a date field as it can arrive from the store
(Date | Timestamp | string | null | undefined). `dateObj none` is an invalid
Date (getTime is NaN); `strVal` carries the result of the JS primitive
new Date(string): `some ms` when parseable, `none` otherwise; a Firestore
Timestamp always denotes a valid instant. -/
inductive DateFieldValue where
  | nullOrUndefined : DateFieldValue
  | dateObj (timeMs : Option Int) : DateFieldValue
  | timestampObj (ms : Int) : DateFieldValue
  | strVal (parsedMs : Option Int) : DateFieldValue
deriving DecidableEq

/-- toDateSafe of src/src/App.tsx (lines 179-185): null/undefined stay absent,
an invalid Date becomes null, a Timestamp is converted, a string is parsed and
kept only when the parse is valid. -/
def toDateSafe : DateFieldValue → Option Int
  | .nullOrUndefined => none
  | .dateObj t => t
  | .timestampObj m => some m
  | .strVal p => p

/-! Initial-event suppression (alert dispatcher, TodoItemCard.tsx
lines 280-295). -/

/-- The suppression predicate computed by the live dispatch effect: the first
alert event is swallowed when the task's creation instant is truthy, lies
within the 60s grace window of now, and the tier recorded at mount time was
not SAFE. The live tier at dispatch time is not consulted. (The conjunct
createdAt ≠ 0 reproduces the JS truthiness test on createdAtMs.) -/
def shouldSkipInitial (now : Int) (createdAt : Option Int)
    (initialTier : Tier) : Bool :=
  let withinWindow : Bool :=
    match createdAt with
    | none => false
    | some c => decide (c ≠ 0) && decide (now - c < INITIAL_EVENT_SKIP_WINDOW_MS)
  withinWindow && decide (initialTier ≠ .safe)

/-- Modelled from the spec: the suppression predicate as the claim states it,
with the additional third conjunct that the live tier at the moment of
dispatch must equal the creation-time tier. Used only to compare against the
source predicate `shouldSkipInitial`. -/
def shouldSkipInitialSpec (now : Int) (createdAt : Option Int)
    (initialTier liveTier : Tier) : Bool :=
  let withinWindow : Bool :=
    match createdAt with
    | none => false
    | some c => decide (c ≠ 0) && decide (now - c < INITIAL_EVENT_SKIP_WINDOW_MS)
  withinWindow && decide (initialTier ≠ .safe) && decide (liveTier = initialTier)

/-- The first-event dispatch decision of the effect (lines 280-295): given the
hasSkippedInitialEvent flag, returns (dispatched, new flag). Whether the event
is swallowed or dispatched, the flag becomes true afterwards. -/
def dispatchFirstEvent (hasSkipped : Bool) (now : Int) (createdAt : Option Int)
    (initialTier : Tier) : Bool × Bool :=
  if hasSkipped then (true, true)
  else if shouldSkipInitial now createdAt initialTier then (false, true)
  else (true, true)

/-! The threshold scheduler (evaluateSchedule, TodoItemCard.tsx
lines 439-524), embedded as a pure tick function on an explicit state. -/

/-- A named time-offset threshold (key and offset in milliseconds). -/
structure Threshold where
  key : String
  ms : Int
deriving DecidableEq, Repr

/-- PRE_DEADLINE_THRESHOLDS_ASC of TodoItemCard.tsx (lines 36-43). -/
def PRE_DEADLINE_THRESHOLDS_ASC : List Threshold :=
  [⟨"pre-30m", HALF_HOUR_MS⟩, ⟨"pre-1h", HOUR_MS⟩, ⟨"pre-2h", 2 * HOUR_MS⟩,
   ⟨"pre-3h", 3 * HOUR_MS⟩, ⟨"pre-4h", 4 * HOUR_MS⟩, ⟨"pre-5h", 5 * HOUR_MS⟩]

/-- POST_DEADLINE_THRESHOLDS_ASC of TodoItemCard.tsx (lines 45-49). -/
def POST_DEADLINE_THRESHOLDS_ASC : List Threshold :=
  [⟨"post-1h", HOUR_MS⟩, ⟨"post-6h", 6 * HOUR_MS⟩, ⟨"post-24h", 24 * HOUR_MS⟩]

/-- An alert event emitted by one tick: either a tier-transition alert or a
threshold-crossing alert tagged with its threshold key (each event is one
triggerNagEvent call in the source). -/
inductive AlertEvent where
  | tierTransition : AlertEvent
  | threshold (key : String) : AlertEvent
deriving DecidableEq, Repr

/-- The per-task scheduler state of the source: prevPriorityRef,
prevRemainingRef and triggeredThresholdsRef (the fired-threshold-key set,
kept as a list without duplicates by construction). -/
structure SchedState where
  prevPriority : Tier
  prevRemaining : Option Int
  fired : List String
deriving DecidableEq, Repr

/-- The ascending pre-deadline scan (lines 484-495): the first threshold whose
key is unfired, whose offset the previous remaining time was strictly above
(an unset previous value counts as above everything), and which the current
diff is at or below. -/
def preScan (prevDiff : Option Int) (diff : Int) (fired : List String) :
    Option Threshold :=
  PRE_DEADLINE_THRESHOLDS_ASC.find? fun th =>
    (match prevDiff with
     | none => true
     | some p => decide (p > th.ms)) &&
    decide (diff ≤ th.ms) && !(fired.contains th.key)

/-- The ascending post-deadline scan (lines 506-519): the first threshold
whose key is unfired, whose offset the previous elapsed time was strictly
below and the current elapsed time is at or above. -/
def postScan (prevElapsed elapsed : Int) (fired : List String) :
    Option Threshold :=
  POST_DEADLINE_THRESHOLDS_ASC.find? fun th =>
    decide (prevElapsed < th.ms) && decide (elapsed ≥ th.ms) &&
      !(fired.contains th.key)

/-- The prevPositive test of line 496 (an unset previous value counts as
positive). -/
def prevPositiveB : Option Int → Bool
  | none => true
  | some p => decide (0 < p)

/-- The threshold-evaluation block of evaluateSchedule (lines 481-521), run
while the live tier is CRITICAL and no tier-transition alert fired this tick:
returns the updated fired-key set and the emitted events. In the source the
synthesis of each event is a triggerNagEvent call; note that the deadline-hit
check is independent of whether the pre-deadline scan just fired. -/
def thresholdPhase (prevDiff : Option Int) (diff : Int) (fired : List String) :
    List String × List AlertEvent :=
  if 0 ≤ diff then
    let fired2 := match preScan prevDiff diff fired with
      | some th => fired ++ [th.key]
      | none => fired
    let evs1 : List AlertEvent := match preScan prevDiff diff fired with
      | some th => [.threshold th.key]
      | none => []
    if prevPositiveB prevDiff = true ∧ diff ≤ 0 ∧ "deadline-hit" ∉ fired2 then
      (fired2 ++ ["deadline-hit"], evs1 ++ [.threshold "deadline-hit"])
    else (fired2, evs1)
  else
    let prevElapsed : Int := match prevDiff with
      | none => 0
      | some p => max 0 (-p)
    let elapsed : Int := |diff|
    match postScan prevElapsed elapsed fired with
    | some th => (fired ++ [th.key], [.threshold th.key])
    | none => (fired, [])

/-- One clock tick of evaluateSchedule (lines 439-524) for a task with the
given completion flag, deadline and estimate, evaluated at instant now:
returns the new scheduler state and the alert events emitted during the tick.
The source assigns prevPriorityRef only inside the tier-change branch; since
the value assigned is livePriority and the unchanged value already equals it,
the embedding assigns livePriority unconditionally. -/
def tick (isCompleted : Bool) (deadline : Int) (est : Option ℚ) (now : Int)
    (s : SchedState) : SchedState × List AlertEvent :=
  let diff := deadline - now
  if isCompleted then
    ({ prevPriority := s.prevPriority, prevRemaining := some diff, fired := [] },
      [])
  else
    let livePriority := calculateLocalPriority (some deadline) est now
    let tierAlert : Bool :=
      decide (s.prevPriority ≠ livePriority) &&
        ((decide (s.prevPriority = .safe) && decide (livePriority = .warning)) ||
         (decide (s.prevPriority ≠ .critical) &&
           decide (livePriority = .critical)))
    let fired1 : List String :=
      if s.prevPriority ≠ livePriority ∧ livePriority ≠ .critical then []
      else s.fired
    if livePriority ≠ .critical then
      ({ prevPriority := livePriority, prevRemaining := some diff,
         fired := fired1 },
        if tierAlert then [.tierTransition] else [])
    else if tierAlert then
      ({ prevPriority := livePriority, prevRemaining := some diff,
         fired := fired1 },
        [.tierTransition])
    else
      let r := thresholdPhase s.prevRemaining diff fired1
      ({ prevPriority := livePriority, prevRemaining := some diff,
         fired := r.1 }, r.2)

/-- A whole sequence of ticks for one fixed task lifecycle: folds tick over
the list of tick instants, concatenating the emitted events. -/
def runSched (c : Bool) (d : Int) (e : Option ℚ) (s : SchedState) :
    List Int → SchedState × List AlertEvent
  | [] => (s, [])
  | t :: ts =>
    let r1 := tick c d e t s
    let r2 := runSched c d e r1.1 ts
    (r2.1, r1.2 ++ r2.2)

/-- How many alert events in the list carry the threshold key k. -/
def countKey (k : String) : List AlertEvent → Nat
  | [] => 0
  | .threshold k2 :: rest => (if k2 = k then 1 else 0) + countKey k rest
  | .tierTransition :: rest => countKey k rest

/-- Whether one tick takes a branch that clears the fired-threshold-key set:
the completed branch (line 442) or a tier change to a non-CRITICAL tier
(lines 470-472). -/
def tickClears (isCompleted : Bool) (deadline : Int) (est : Option ℚ)
    (now : Int) (s : SchedState) : Bool :=
  isCompleted ||
    (decide (s.prevPriority ≠ calculateLocalPriority (some deadline) est now) &&
     decide (calculateLocalPriority (some deadline) est now ≠ .critical))

/-- Whether no tick of the run clears the fired-threshold-key set. -/
def noClearRun (c : Bool) (d : Int) (e : Option ℚ) :
    List Int → SchedState → Bool
  | [], _ => true
  | t :: ts, s =>
    !tickClears c d e t s && noClearRun c d e ts (tick c d e t s).1

end NanoLab

/-! The speech queue (src/src/App.tsx lines 546-643), embedded as two
state machines. The synchronous prefix of an async function runs atomically
on the single-threaded event loop; the models differ in where they place the
suspension points of one flushSpeechQueue invocation.

The COARSE model below (SpeechState) folds the synthesis await into the
dequeue step: a job is "in flight" from the moment the flush invocation
shifts it until its playback settles or its audio is stopped, and audioRef is
assigned at dequeue. This is an abstraction: in the source, audioRef is
assigned only after the fetch resolves, so there is a window with
isSpeaking = true and audioRef = null that the coarse model erases. The
coarse model is used only for scenarios whose interleavings avoid that
window - an interrupt landing while a job is actually playing, a playback
failure, a disabled enqueue.

The FINE model further below (SpeechFineState) keeps the two phases of an
invocation apart (suspended in synthesis vs. playback running) and is the
one used to settle the serialization claim: it exhibits the source's
concurrent-playback window and proves serialization for the interrupt-free
fragment. -/

namespace NanoLab

/-- A speech job: its id, the message text, and the persona style. The two
continuation handles of the source are modelled by recording each jid in the
resolved or rejected list when its promise settles. -/
structure SpeechJob where
  jid : Nat
  message : String
  style : String
deriving DecidableEq, Repr

/-- The mutable state of the speech queue: speechQueueRef (pending jobs),
isSpeakingRef, the set of in-flight playback attempts (jids), audioRef (the
audio element the interrupt path would pause), speechCacheRef (synthesized
(style, message) keys), and the bookkeeping lists: the order playback
started, the jobs stopped by interrupt, and the settled promises. -/
structure SpeechState where
  queue : List SpeechJob
  speaking : Bool
  inFlight : List Nat
  audioRef : Option Nat
  cache : List (String × String)
  started : List Nat
  stopped : List Nat
  resolved : List Nat
  rejected : List Nat
deriving DecidableEq, Repr

/-- flushSpeechQueue of App.tsx (lines 546-593) in the coarse model: return
if speech is disabled or already speaking; otherwise shift the head job, mark
speaking, synthesize-or-fetch-from-cache its audio and begin playback.
Coarsening: inFlight, audioRef and started are set atomically at dequeue,
folding away the fetch await; in the source audioRef is assigned only after
synthesis (see flushFine for the faithful two-phase version). -/
def flushSpeechQueue (enabled : Bool) (s : SpeechState) : SpeechState :=
  if enabled = false ∨ s.speaking = true then s
  else
    match s.queue with
    | [] => s
    | j :: rest =>
      { s with
        queue := rest,
        speaking := true,
        inFlight := s.inFlight ++ [j.jid],
        audioRef := some j.jid,
        cache := if s.cache.contains (j.style, j.message) then s.cache
                 else s.cache ++ [(j.style, j.message)],
        started := s.started ++ [j.jid] }

/-- handleSpeak of App.tsx (lines 621-643) in the coarse model: with speech
disabled or an empty message, return an already-resolved promise (the Bool
result true) without touching any state; otherwise, if interrupt is
requested, clear the pending queue, pause the audio held by audioRef
(stopping that job's in-flight playback; its promise stays pending forever)
and reset isSpeaking; then push the new job and flush. Coarsening: because
audioRef is set at dequeue here, an interrupt always stops the in-flight
job; in the source an interrupt landing during the synthesis window pauses
nothing and that job still plays (see speakFine). -/
def handleSpeak (enabled : Bool) (j : SpeechJob) (interrupt : Bool)
    (s : SpeechState) : SpeechState × Bool :=
  if enabled = false ∨ j.message = "" then (s, true)
  else
    let s1 :=
      if interrupt then
        match s.audioRef with
        | some a =>
          { s with
            queue := [],
            inFlight := s.inFlight.erase a,
            stopped := if a ∈ s.inFlight then s.stopped ++ [a] else s.stopped,
            speaking := false }
        | none =>
          { s with
            queue := [],
            speaking := false }
      else s
    (flushSpeechQueue enabled { s1 with queue := s1.queue ++ [j] }, false)

/-- The settlement continuation of one playback inside flushSpeechQueue: the
audio of job jid ends (ok = true: onended, resolve) or fails (ok = false:
onerror or a synthesis error, catch and reject); then the finally block
resets isSpeaking and flushes again when jobs are pending. Idealization: the
model clears audioRef on every settlement; in the source the
audio.play().catch(reject) failure sub-path leaves audioRef pointing at the
stale element until the next playback overwrites it, observable only through
which audio a later interrupt pauses. -/
def settlePlayback (enabled : Bool) (jid : Nat) (ok : Bool)
    (s : SpeechState) : SpeechState :=
  let s1 := { s with
    inFlight := s.inFlight.erase jid,
    audioRef := none,
    resolved := if ok then s.resolved ++ [jid] else s.resolved,
    rejected := if ok then s.rejected else s.rejected ++ [jid],
    speaking := false }
  if s.queue.isEmpty then s1 else flushSpeechQueue enabled s1

/-- The initial, idle queue state. -/
def idleState : SpeechState := ⟨[], false, [], none, [], [], [], [], []⟩

/-- A job id that is gone from the queue and not in flight and whose promise
never settled: pending forever unless a new job reuses the id. -/
def JobDead (n : Nat) (s : SpeechState) : Prop :=
  (∀ j ∈ s.queue, j.jid ≠ n) ∧ n ∉ s.inFlight ∧ n ∉ s.resolved ∧
    n ∉ s.rejected

/-- A queue step that never enqueues a job with id n (used to state that a
discarded job's promise can never settle later). -/
inductive QStepAvoid (enabled : Bool) (n : Nat) :
    SpeechState → SpeechState → Prop where
  | speak (s : SpeechState) (j : SpeechJob) (intr : Bool) (hj : j.jid ≠ n) :
      QStepAvoid enabled n s (handleSpeak enabled j intr s).1
  | settle (s : SpeechState) (jid : Nat) (ok : Bool) (h : jid ∈ s.inFlight) :
      QStepAvoid enabled n s (settlePlayback enabled jid ok s)

/-- A job used in the concrete queue scenarios (nonempty message). -/
def mkJob (n : Nat) : SpeechJob := ⟨n, "m", "st"⟩

/-- Scenario state: J1 enqueued on the idle queue (playback of J1 starts). -/
def c5s1 : SpeechState := (handleSpeak true (mkJob 1) false idleState).1

/-- Scenario state: J2 enqueued while J1 plays. -/
def c5s2 : SpeechState := (handleSpeak true (mkJob 2) false c5s1).1

/-- Scenario state: J3 enqueued while J1 plays, J2 pending. -/
def c5s3 : SpeechState := (handleSpeak true (mkJob 3) false c5s2).1

/-- Scenario state: J4 enqueued with interrupt while J1 plays and J2, J3 are
pending. -/
def c6s4 : SpeechState := (handleSpeak true (mkJob 4) true c5s3).1

end NanoLab

/-! The fine-grained speech queue model: the two suspension points of one
flushSpeechQueue invocation are kept apart. On a cache miss the invocation
suspends at the synthesis fetch with audioRef still unassigned (the job is
"fetching"); only when the fetch resolves is the audio element created,
audioRef assigned and playback started (the job is "playing"). On a cache
hit the promise executor runs synchronously, so dequeue and playback start
are one atomic step. This model exposes the source's window with
isSpeaking = true and audioRef = null during synthesis. -/

namespace NanoLab

/-- Fine-grained speech queue state. fetching holds the jobs whose flush
invocation is suspended at the synthesis fetch (kept as whole jobs, since the
cache key is written when the fetch resolves); playing holds the jids whose
audio is created and playing. -/
structure SpeechFineState where
  queue : List SpeechJob
  speaking : Bool
  fetching : List SpeechJob
  playing : List Nat
  audioRef : Option Nat
  cache : List (String × String)
  started : List Nat
  stopped : List Nat
  resolved : List Nat
  rejected : List Nat
deriving DecidableEq, Repr

/-- Synchronous prefix of flushSpeechQueue in the fine model: return if
disabled or already speaking; otherwise shift the head job and mark
speaking. On a cache hit the audio is created, audioRef assigned and
playback started in the same step; on a miss the invocation suspends at the
fetch, leaving audioRef untouched. -/
def flushFine (enabled : Bool) (s : SpeechFineState) : SpeechFineState :=
  if enabled = false ∨ s.speaking = true then s
  else
    match s.queue with
    | [] => s
    | j :: rest =>
      if s.cache.contains (j.style, j.message) then
        { s with
          queue := rest,
          speaking := true,
          playing := s.playing ++ [j.jid],
          audioRef := some j.jid,
          started := s.started ++ [j.jid] }
      else
        { s with
          queue := rest,
          speaking := true,
          fetching := s.fetching ++ [j] }

/-- Resumption of a flush invocation whose synthesis fetch resolved: the url
is cached under (style, message), the audio element is created, audioRef is
assigned and playback starts. -/
def fetchDoneFine (j : SpeechJob) (s : SpeechFineState) : SpeechFineState :=
  { s with
    fetching := s.fetching.erase j,
    cache := if s.cache.contains (j.style, j.message) then s.cache
             else s.cache ++ [(j.style, j.message)],
    playing := s.playing ++ [j.jid],
    audioRef := some j.jid,
    started := s.started ++ [j.jid] }

/-- Resumption of a flush invocation whose synthesis fetch failed (network
error or non-ok response): the catch rejects that job's promise, then the
finally block resets isSpeaking and flushes again when jobs are pending. -/
def fetchFailFine (enabled : Bool) (j : SpeechJob) (s : SpeechFineState) :
    SpeechFineState :=
  let s1 := { s with
    fetching := s.fetching.erase j,
    rejected := s.rejected ++ [j.jid],
    speaking := false }
  if s.queue.isEmpty then s1 else flushFine enabled s1

/-- Settlement of a running playback in the fine model: onended (ok = true,
resolve) or a playback error (ok = false, reject), then the finally block
resets isSpeaking and flushes when jobs are pending. -/
def playbackEndFine (enabled : Bool) (jid : Nat) (ok : Bool)
    (s : SpeechFineState) : SpeechFineState :=
  let s1 := { s with
    playing := s.playing.erase jid,
    audioRef := none,
    resolved := if ok then s.resolved ++ [jid] else s.resolved,
    rejected := if ok then s.rejected else s.rejected ++ [jid],
    speaking := false }
  if s.queue.isEmpty then s1 else flushFine enabled s1

/-- handleSpeak in the fine model. The interrupt branch pauses only the
audio element audioRef points to: an invocation still suspended in synthesis
has no audio element yet, is not affected by the pause, and keeps running
after isSpeaking is reset - the window the coarse model erases. -/
def speakFine (enabled : Bool) (j : SpeechJob) (interrupt : Bool)
    (s : SpeechFineState) : SpeechFineState × Bool :=
  if enabled = false ∨ j.message = "" then (s, true)
  else
    let s1 :=
      if interrupt then
        match s.audioRef with
        | some a =>
          { s with
            queue := [],
            playing := s.playing.erase a,
            stopped := if a ∈ s.playing then s.stopped ++ [a] else s.stopped,
            speaking := false }
        | none =>
          { s with
            queue := [],
            speaking := false }
      else s
    (flushFine enabled { s1 with queue := s1.queue ++ [j] }, false)

/-- One atomic event-loop step of the fine speech machine: an enqueue call,
the resolution or failure of a pending synthesis fetch, or the settlement of
a running playback. -/
inductive FineStep (enabled : Bool) :
    SpeechFineState → SpeechFineState → Prop where
  | speak (s : SpeechFineState) (j : SpeechJob) (intr : Bool) :
      FineStep enabled s (speakFine enabled j intr s).1
  | fetchDone (s : SpeechFineState) (j : SpeechJob) (h : j ∈ s.fetching) :
      FineStep enabled s (fetchDoneFine j s)
  | fetchFail (s : SpeechFineState) (j : SpeechJob) (h : j ∈ s.fetching) :
      FineStep enabled s (fetchFailFine enabled j s)
  | playbackEnd (s : SpeechFineState) (jid : Nat) (ok : Bool)
      (h : jid ∈ s.playing) :
      FineStep enabled s (playbackEndFine enabled jid ok s)

/-- The interrupt-free fragment of the fine machine: every enqueue uses
interrupt = false, as the live dispatcher's onSpeak calls do
(TodoItemCard.tsx line 301 passes no options). -/
inductive FineStepSeq (enabled : Bool) :
    SpeechFineState → SpeechFineState → Prop where
  | speak (s : SpeechFineState) (j : SpeechJob) :
      FineStepSeq enabled s (speakFine enabled j false s).1
  | fetchDone (s : SpeechFineState) (j : SpeechJob) (h : j ∈ s.fetching) :
      FineStepSeq enabled s (fetchDoneFine j s)
  | fetchFail (s : SpeechFineState) (j : SpeechJob) (h : j ∈ s.fetching) :
      FineStepSeq enabled s (fetchFailFine enabled j s)
  | playbackEnd (s : SpeechFineState) (jid : Nat) (ok : Bool)
      (h : jid ∈ s.playing) :
      FineStepSeq enabled s (playbackEndFine enabled jid ok s)

/-- The initial, idle fine-model state. -/
def idleFine : SpeechFineState := ⟨[], false, [], [], none, [], [], [], [], []⟩

/-- The single-flight invariant of the interrupt-free fragment: nothing in
flight when not speaking, and exactly one invocation - either suspended in
synthesis or playing - when speaking. -/
def FineInv (s : SpeechFineState) : Prop :=
  (s.speaking = false → s.fetching = [] ∧ s.playing = []) ∧
  (s.speaking = true →
    (∃ a, s.fetching = [a] ∧ s.playing = []) ∨
    (∃ b, s.playing = [b] ∧ s.fetching = []))

/-- Jobs of the fine-model scenarios (distinct messages, so each job goes
through the synthesis fetch). -/
def fJ1 : SpeechJob := ⟨1, "m1", "st"⟩

/-- Second fine-model scenario job. -/
def fJ2 : SpeechJob := ⟨2, "m2", "st"⟩

/-- Third fine-model scenario job. -/
def fJ3 : SpeechJob := ⟨3, "m3", "st"⟩

/-- The interrupting fine-model scenario job. -/
def fJ4 : SpeechJob := ⟨4, "m4", "st"⟩

/-- Fine trace: J1 enqueued on the idle queue (J1's synthesis starts). -/
def f1 : SpeechFineState := (speakFine true fJ1 false idleFine).1

/-- Fine trace: J1's synthesis resolves (J1's playback starts). -/
def f2 : SpeechFineState := fetchDoneFine fJ1 f1

/-- Fine trace: J2 enqueued while J1 plays. -/
def f3 : SpeechFineState := (speakFine true fJ2 false f2).1

/-- Fine trace: J3 enqueued while J1 plays, J2 pending. -/
def f4 : SpeechFineState := (speakFine true fJ3 false f3).1

/-- Fine trace: J1's playback completes (J2 is dequeued into synthesis). -/
def f5 : SpeechFineState := playbackEndFine true 1 true f4

/-- Fine trace: J2's synthesis resolves (J2's playback starts). -/
def f6 : SpeechFineState := fetchDoneFine fJ2 f5

/-- Fine trace: J2's playback completes (J3 is dequeued into synthesis). -/
def f7 : SpeechFineState := playbackEndFine true 2 true f6

/-- Fine trace: J3's synthesis resolves (J3's playback starts). -/
def f8 : SpeechFineState := fetchDoneFine fJ3 f7

/-- Fine trace: J3's playback completes (queue drained). -/
def f9 : SpeechFineState := playbackEndFine true 3 true f8

/-- Concurrency counterexample trace: J4 enqueued with interrupt while J1 is
still suspended in synthesis - the pause finds audioRef null and stops
nothing, isSpeaking is reset, and J4 is dequeued into synthesis too. -/
def cx2 : SpeechFineState := (speakFine true fJ4 true f1).1

/-- Concurrency counterexample trace: J1's synthesis resolves - J1's
playback starts although J4 is already in flight. -/
def cx3 : SpeechFineState := fetchDoneFine fJ1 cx2

/-- Concurrency counterexample trace: J4's synthesis resolves - J4's
playback starts while J1 is still playing: two concurrent playbacks. -/
def cx4 : SpeechFineState := fetchDoneFine fJ4 cx3

end NanoLab

/-! Classifier lemmas and claims about the estimate branch,
initial-event suppression and boundary normalization. -/

namespace NanoLab


/-- Unfolding of the live classifier at a present deadline. -/
theorem calculateLocalPriority_some (d : Int) (e : Option ℚ) (now : Int) :
    calculateLocalPriority (some d) e now =
      if remainingHoursOf d now ≤ 0 then .critical
      else if remainingHoursOf d now ≤ 6 then .critical
      else if remainingHoursOf d now ≤ 24 then .warning
      else .safe := rfl

/-- Unfolding of the tmp-variant classifier at a present deadline and present
estimate. -/
theorem tmpCalculateLocalPriority_some (d : Int) (est : ℚ) (now : Int) :
    tmpCalculateLocalPriority (some d) (some est) now =
      if remainingHoursOf d now ≤ 0 then .critical
      else if remainingHoursOf d now < est then .critical
      else if remainingHoursOf d now < est * 2 then .warning
      else .safe := rfl

/-- C2 counterexample. With deadline 20 hours away (remaining time positive)
and an effort estimate of 30 hours, remainingHours < estimate, so the claim
demands CRITICAL; the classifiers actually in use return WARNING, because they
ignore the estimate and use the fixed 24-hour warning cutoff. -/
theorem estimate_branch_counterexample :
    (0 : ℚ) < remainingHoursOf 72000000 0 ∧
    remainingHoursOf 72000000 0 < 30 ∧
    calculateLocalPriority (some 72000000) (some 30) 0 = Tier.warning ∧
    calculatePriority (some 72000000) (some 30) 0 = Tier.warning ∧
    calculateLocalPriority (some 72000000) (some 30) 0 ≠ Tier.critical := by
  have h : remainingHoursOf 72000000 0 = 20 := by
    norm_num [remainingHoursOf, HOUR_MS]
  have hc : calculateLocalPriority (some 72000000) (some 30) 0 = Tier.warning := by
    rw [calculateLocalPriority_some, h]; norm_num
  have hc2 : calculatePriority (some 72000000) (some 30) 0 = Tier.warning := by
    rw [show calculatePriority (some 72000000) (some 30) 0
        = calculateLocalPriority (some 72000000) (some 30) 0 from rfl, hc]
  exact ⟨by rw [h]; norm_num, by rw [h]; norm_num, hc, hc2,
    by rw [hc]; decide⟩

/-- C2 amended. The classifiers the application uses (calculateLocalPriority
in TodoItemCard.tsx and calculatePriority in App.tsx) ignore the effort
estimate entirely: with positive remaining time they return CRITICAL iff
remainingHours ≤ 6, WARNING iff 6 < remainingHours ≤ 24, SAFE iff
24 < remainingHours, for every estimate. The claimed estimate-aware trichotomy
(remainingHours < estimate → CRITICAL, < 2 x estimate → WARNING, else SAFE)
holds only for the unused variant in src/tmp_TodoItemCard.tsx. -/
theorem estimate_branch_amended :
    (∀ d e1 e2 now,
        calculateLocalPriority d e1 now = calculateLocalPriority d e2 now) ∧
    (∀ d e now, calculatePriority d e now = calculateLocalPriority d e now) ∧
    (∀ d now (est : ℚ), 0 < remainingHoursOf d now →
      (calculateLocalPriority (some d) (some est) now = .critical ↔
        remainingHoursOf d now ≤ 6) ∧
      (calculateLocalPriority (some d) (some est) now = .warning ↔
        6 < remainingHoursOf d now ∧ remainingHoursOf d now ≤ 24) ∧
      (calculateLocalPriority (some d) (some est) now = .safe ↔
        24 < remainingHoursOf d now)) ∧
    (∀ d now (est : ℚ), 0 < remainingHoursOf d now →
      (remainingHoursOf d now < est →
        tmpCalculateLocalPriority (some d) (some est) now = .critical) ∧
      (est ≤ remainingHoursOf d now → remainingHoursOf d now < est * 2 →
        tmpCalculateLocalPriority (some d) (some est) now = .warning) ∧
      (est * 2 ≤ remainingHoursOf d now →
        tmpCalculateLocalPriority (some d) (some est) now = .safe)) := by
  refine ⟨?_, ?_, ?_, ?_⟩
  · intro d e1 e2 now; cases d <;> rfl
  · intro d e now; cases d <;> rfl
  · intro d now est h
    have h0 : ¬ remainingHoursOf d now ≤ 0 := not_le.mpr h
    rw [calculateLocalPriority_some]
    rcases le_or_lt (remainingHoursOf d now) 6 with h6 | h6
    · rw [if_neg h0, if_pos h6]
      refine ⟨⟨fun _ => h6, fun _ => rfl⟩, ?_, ?_⟩
      · exact ⟨fun hx => absurd hx (by decide),
          fun hx => absurd hx.1 (not_lt.mpr h6)⟩
      · exact ⟨fun hx => absurd hx (by decide),
          fun hx => absurd hx (not_lt.mpr (by linarith))⟩
    · rcases le_or_lt (remainingHoursOf d now) 24 with h24 | h24
      · rw [if_neg h0, if_neg (not_le.mpr h6), if_pos h24]
        refine ⟨?_, ⟨fun _ => ⟨h6, h24⟩, fun _ => rfl⟩, ?_⟩
        · exact ⟨fun hx => absurd hx (by decide),
            fun hx => absurd hx (not_le.mpr h6)⟩
        · exact ⟨fun hx => absurd hx (by decide),
            fun hx => absurd hx (not_lt.mpr h24)⟩
      · rw [if_neg h0, if_neg (not_le.mpr h6), if_neg (not_le.mpr h24)]
        refine ⟨?_, ?_, ⟨fun _ => h24, fun _ => rfl⟩⟩
        · exact ⟨fun hx => absurd hx (by decide),
            fun hx => absurd hx (not_le.mpr (by linarith))⟩
        · exact ⟨fun hx => absurd hx (by decide),
            fun hx => absurd hx.2 (not_le.mpr h24)⟩
  · intro d now est h
    have h0 : ¬ remainingHoursOf d now ≤ 0 := not_le.mpr h
    rw [tmpCalculateLocalPriority_some]
    refine ⟨fun hx => ?_, fun hx hy => ?_, fun hx => ?_⟩
    · rw [if_neg h0, if_pos hx]
    · rw [if_neg h0, if_neg (not_lt.mpr hx), if_pos hy]
    · have hle : est ≤ remainingHoursOf d now := by
        rcases le_or_lt est 0 with hs | hs <;> linarith
      rw [if_neg h0, if_neg (not_lt.mpr hle), if_neg (not_lt.mpr hx)]

/-- Witness for the amended C2 theorem at a concrete input: remaining time
20 hours, estimate 30 hours. -/
theorem estimate_branch_amended_witness :
    calculateLocalPriority (some 72000000) (some 30) 0 = Tier.warning ∧
    tmpCalculateLocalPriority (some 72000000) (some 30) 0 = Tier.critical := by
  obtain ⟨-, -, h3, h4⟩ := estimate_branch_amended
  have h : remainingHoursOf 72000000 0 = 20 := by
    norm_num [remainingHoursOf, HOUR_MS]
  have hpos : (0 : ℚ) < remainingHoursOf 72000000 0 := by rw [h]; norm_num
  constructor
  · exact ((h3 72000000 0 30 hpos).2.1).mpr (by rw [h]; norm_num)
  · exact (h4 72000000 0 30 hpos).1 (by rw [h]; norm_num)

/-! Claims about initial-event suppression. -/

/-- C3 counterexample. A first alert event occurring 10 seconds after a
creation whose tier was WARNING, while the live tier at dispatch time is
CRITICAL: the live code suppresses the event (it checks only the window and
the creation tier), whereas the claimed three-condition rule would dispatch it
because the live tier differs from the creation tier. -/
theorem initial_suppression_counterexample :
    shouldSkipInitial 110000 (some 100000) Tier.warning = true ∧
    (dispatchFirstEvent false 110000 (some 100000) Tier.warning).1 = false ∧
    shouldSkipInitialSpec 110000 (some 100000) Tier.warning Tier.critical
      = false := by
  refine ⟨?_, ?_, ?_⟩ <;> decide

/-- C3 amended. The very first alert event of a task instance is suppressed
iff the creation instant is truthy, lies within the 60-second grace window of
now, and the tier at creation was non-SAFE; the live tier at dispatch time is
not consulted (the two predicates agree exactly when the live tier equals the
creation tier). The claim's example still emits: for a task created 10 seconds
before mount in WARNING, the tick one minute later dispatches its transition
alert because the grace window has expired by then, not because the tier
changed. -/
theorem initial_suppression_amended :
    (∀ now c i, shouldSkipInitial now (some c) i = true ↔
      (c ≠ 0 ∧ now - c < INITIAL_EVENT_SKIP_WINDOW_MS ∧ i ≠ .safe)) ∧
    (∀ now i, shouldSkipInitial now none i = false) ∧
    (∀ now c i, shouldSkipInitialSpec now c i i = shouldSkipInitial now c i) ∧
    (∀ hs now c i, (dispatchFirstEvent hs now c i).1 = false ↔
      (hs = false ∧ shouldSkipInitial now c i = true)) ∧
    (dispatchFirstEvent false 80000 (some 10000) Tier.warning).1 = true := by
  refine ⟨?_, ?_, ?_, ?_, by decide⟩
  · intro now c i
    simp [shouldSkipInitial, and_assoc]
  · intro now i
    simp [shouldSkipInitial]
  · intro now c i
    simp [shouldSkipInitial, shouldSkipInitialSpec]
  · intro hs now c i
    cases hs
    · by_cases hsk : shouldSkipInitial now c i = true <;>
        simp [dispatchFirstEvent, hsk]
    · simp [dispatchFirstEvent]

/-- Witness for the amended C3 theorem: within the window (10 s after a
truthy creation instant) with a WARNING creation tier the first event is
suppressed. -/
theorem initial_suppression_amended_witness :
    shouldSkipInitial 110000 (some 100000) Tier.warning = true ∧
    (dispatchFirstEvent false 110000 (some 100000) Tier.warning).1 = false := by
  obtain ⟨h1, -, -, h4, -⟩ := initial_suppression_amended
  constructor
  · exact (h1 110000 100000 Tier.warning).mpr (by refine ⟨by decide, by decide, by decide⟩)
  · exact (h4 false 110000 (some 100000) Tier.warning).mpr
      ⟨rfl, (h1 110000 100000 Tier.warning).mpr ⟨by decide, by decide, by decide⟩⟩

/-! Claims about boundary normalization. -/

/-- C9 counterexample. A negative finite effort estimate (-5) is NOT
normalized to absent at the data-store boundary: normalizeEstimatedTime
returns it unchanged, because the source only tests Number.isFinite. -/
theorem boundary_normalization_counterexample :
    normalizeEstimatedTime (.num (.finite (-5))) = some (-5) ∧
    normalizeEstimatedTime (.num (.finite (-5))) ≠ none ∧
    (-5 : ℚ) < 0 := by
  refine ⟨rfl, by simp [normalizeEstimatedTime], by norm_num⟩

/-- C9 amended. At the data-store boundary, unparseable deadline dates,
invalid Date objects, null/undefined fields, and NaN or infinite effort
estimates are all normalized to absent, and the normalizers are total
functions (never throw); a negative finite estimate, however, passes through
unchanged (the edit form rejects negatives separately, but the boundary does
not). -/
theorem boundary_normalization_amended :
    toDateSafe (.strVal none) = none ∧
    toDateSafe (.dateObj none) = none ∧
    toDateSafe .nullOrUndefined = none ∧
    (∀ m, toDateSafe (.timestampObj m) = some m) ∧
    (∀ t, toDateSafe (.dateObj t) = t) ∧
    (∀ p, toDateSafe (.strVal p) = p) ∧
    normalizeEstimatedTime (.num .nan) = none ∧
    normalizeEstimatedTime (.num .posInf) = none ∧
    normalizeEstimatedTime (.num .negInf) = none ∧
    normalizeEstimatedTime .nullOrUndefined = none ∧
    normalizeEstimatedTime .other = none ∧
    (∀ s, normalizeEstimatedTime (.str s) = s) ∧
    (∀ q, normalizeEstimatedTime (.num (.finite q)) = some q) := by
  refine ⟨rfl, rfl, rfl, fun m => rfl, fun t => rfl, fun p => rfl,
    rfl, rfl, rfl, rfl, rfl, fun s => rfl, fun q => rfl⟩

/-- Witness for the amended C9 theorem at concrete inputs. -/
theorem boundary_normalization_amended_witness :
    toDateSafe (.timestampObj 42) = some 42 ∧
    normalizeEstimatedTime (.num (.finite (3/2))) = some (3/2) := by
  obtain ⟨-, -, -, h4, -, -, -, -, -, -, -, -, h13⟩ :=
    boundary_normalization_amended
  exact ⟨h4 42, h13 (3/2)⟩

end NanoLab

/-! Supporting lemmas about one tick of the scheduler. -/

namespace NanoLab

lemma preScan_facts {p : Option Int} {diff : Int} {f : List String}
    {th : Threshold} (h : preScan p diff f = some th) :
    th.key ∉ f ∧ th.key ≠ "deadline-hit" := by
  have hp := List.find?_some h
  have hmem := List.mem_of_find?_eq_some h
  simp only [Bool.and_eq_true, Bool.not_eq_true'] at hp
  refine ⟨by simpa using hp.2, ?_⟩
  have hall : ∀ t ∈ PRE_DEADLINE_THRESHOLDS_ASC, t.key ≠ "deadline-hit" := by
    decide
  exact hall th hmem

lemma postScan_facts {pe e : Int} {f : List String}
    {th : Threshold} (h : postScan pe e f = some th) : th.key ∉ f := by
  have hp := List.find?_some h
  simp only [Bool.and_eq_true, Bool.not_eq_true'] at hp
  simpa using hp.2

lemma thresholdPhase_shape (p : Option Int) (diff : Int) (f : List String) :
    thresholdPhase p diff f = (f, []) ∨
    (∃ k, k ∉ f ∧ thresholdPhase p diff f = (f ++ [k], [.threshold k])) ∨
    (∃ k, k ∉ f ∧ k ≠ "deadline-hit" ∧ "deadline-hit" ∉ f ∧ diff = 0 ∧
      thresholdPhase p diff f =
        (f ++ [k, "deadline-hit"],
         [.threshold k, .threshold "deadline-hit"])) := by
  simp only [thresholdPhase]
  by_cases hd : 0 ≤ diff
  · rw [if_pos hd]
    cases hpre : preScan p diff f with
    | none =>
      by_cases hdl : prevPositiveB p = true ∧ diff ≤ 0 ∧ "deadline-hit" ∉ f
      · right; left
        exact ⟨"deadline-hit", hdl.2.2, by rw [if_pos hdl]; simp⟩
      · left; rw [if_neg hdl]
    | some th =>
      obtain ⟨hkey, hkd⟩ := preScan_facts hpre
      by_cases hdl : prevPositiveB p = true ∧ diff ≤ 0 ∧
          "deadline-hit" ∉ f ++ [th.key]
      · right; right
        have hdlf : "deadline-hit" ∉ f := fun hmem =>
          hdl.2.2 (List.mem_append_left _ hmem)
        refine ⟨th.key, hkey, hkd, hdlf, le_antisymm hdl.2.1 hd, ?_⟩
        rw [if_pos hdl]
        simp
      · right; left
        exact ⟨th.key, hkey, by rw [if_neg hdl]⟩
  · rw [if_neg hd]
    cases hpost : postScan (match p with | none => 0 | some q => max 0 (-q))
        |diff| f with
    | none => left; rfl
    | some th =>
      right; left
      exact ⟨th.key, postScan_facts hpost, rfl⟩

lemma countKey_append (k : String) (a b : List AlertEvent) :
    countKey k (a ++ b) = countKey k a + countKey k b := by
  induction a with
  | nil => simp [countKey]
  | cons e rest ih =>
    cases e with
    | tierTransition => simp [countKey, ih]
    | threshold k2 =>
      simp [countKey, ih]
      omega

lemma countKey_eq_zero_of_not_mem {k : String} {evs : List AlertEvent}
    (h : AlertEvent.threshold k ∉ evs) : countKey k evs = 0 := by
  induction evs with
  | nil => rfl
  | cons e rest ih =>
    cases e with
    | tierTransition =>
      simp only [countKey]
      exact ih fun hm => h (List.mem_cons_of_mem _ hm)
    | threshold k2 =>
      have hne : k2 ≠ k := fun he => h (he ▸ List.mem_cons_self _ _)
      simp only [countKey, if_neg hne, Nat.zero_add]
      exact ih fun hm => h (List.mem_cons_of_mem _ hm)

lemma thresholdPhase_fired_mono (p : Option Int) (diff : Int) (f : List String)
    (k : String) (hk : k ∈ f) : k ∈ (thresholdPhase p diff f).1 := by
  rcases thresholdPhase_shape p diff f with h | ⟨k1, -, h⟩ | ⟨k1, -, -, -, -, h⟩
  · rw [h]; exact hk
  · rw [h]; exact List.mem_append_left _ hk
  · rw [h]; exact List.mem_append_left _ hk

lemma thresholdPhase_event_not_fired {p : Option Int} {diff : Int}
    {f : List String} {k : String}
    (h : AlertEvent.threshold k ∈ (thresholdPhase p diff f).2) : k ∉ f := by
  rcases thresholdPhase_shape p diff f with hs | ⟨k1, hk1, hs⟩ |
      ⟨k1, hk1, -, hdlf, -, hs⟩
  · rw [hs] at h; simp at h
  · rw [hs] at h; simp at h
    subst h; exact hk1
  · rw [hs] at h; simp at h
    rcases h with h | h
    · subst h; exact hk1
    · subst h; exact hdlf

lemma thresholdPhase_event_fired {p : Option Int} {diff : Int}
    {f : List String} {k : String}
    (h : AlertEvent.threshold k ∈ (thresholdPhase p diff f).2) :
    k ∈ (thresholdPhase p diff f).1 := by
  rcases thresholdPhase_shape p diff f with hs | ⟨k1, -, hs⟩ |
      ⟨k1, -, -, -, -, hs⟩
  · rw [hs] at h; simp at h
  · rw [hs] at h ⊢; simp at h ⊢
    exact Or.inr h
  · rw [hs] at h ⊢; simp at h ⊢
    exact Or.inr h

lemma thresholdPhase_countKey (p : Option Int) (diff : Int) (f : List String)
    (k : String) : countKey k (thresholdPhase p diff f).2 ≤ 1 := by
  rcases thresholdPhase_shape p diff f with hs | ⟨k1, -, hs⟩ |
      ⟨k1, -, hk1d, -, -, hs⟩
  · rw [hs]; exact Nat.zero_le 1
  · rw [hs]; simp only [countKey]
    split <;> omega
  · rw [hs]; simp only [countKey]
    by_cases h1 : k1 = k
    · rw [if_pos h1, if_neg (fun he => hk1d (h1.trans he.symm))]
    · rw [if_neg h1]
      split <;> omega

lemma tick_threshold_branch (c : Bool) (d : Int) (e : Option ℚ) (now : Int)
    (s : SchedState) :
    ((tick c d e now s).2 = [] ∨ (tick c d e now s).2 = [.tierTransition]) ∨
    ((tick c d e now s).1.fired
        = (thresholdPhase s.prevRemaining (d - now) s.fired).1 ∧
     (tick c d e now s).2
        = (thresholdPhase s.prevRemaining (d - now) s.fired).2) := by
  unfold tick
  cases c with
  | true => left; left; rfl
  | false =>
    simp only [Bool.false_eq_true, if_false]
    by_cases hl : calculateLocalPriority (some d) e now ≠ Tier.critical
    · rw [if_pos hl]
      by_cases ha : (decide (s.prevPriority ≠ calculateLocalPriority (some d) e now) &&
          ((decide (s.prevPriority = Tier.safe) &&
            decide (calculateLocalPriority (some d) e now = Tier.warning)) ||
           (decide (s.prevPriority ≠ Tier.critical) &&
            decide (calculateLocalPriority (some d) e now = Tier.critical)))) = true
      · rw [if_pos ha]
        left; right; rfl
      · rw [if_neg ha]
        left; left; rfl
    · rw [if_neg hl]
      push_neg at hl
      by_cases ha : (decide (s.prevPriority ≠ calculateLocalPriority (some d) e now) &&
          ((decide (s.prevPriority = Tier.safe) &&
            decide (calculateLocalPriority (some d) e now = Tier.warning)) ||
           (decide (s.prevPriority ≠ Tier.critical) &&
            decide (calculateLocalPriority (some d) e now = Tier.critical)))) = true
      · rw [if_pos ha]
        left; right; rfl
      · rw [if_neg ha]
        have hf1 : (if s.prevPriority ≠ calculateLocalPriority (some d) e now ∧
            calculateLocalPriority (some d) e now ≠ Tier.critical then
              ([] : List String) else s.fired) = s.fired := by
          rw [if_neg]
          rintro ⟨-, hx⟩
          exact hx hl
        rw [hf1]
        right
        exact ⟨rfl, rfl⟩

lemma tick_countKey_le_one (c : Bool) (d : Int) (e : Option ℚ) (now : Int)
    (s : SchedState) (k : String) : countKey k (tick c d e now s).2 ≤ 1 := by
  rcases tick_threshold_branch c d e now s with (h | h) | ⟨-, he⟩
  · rw [h]; exact Nat.zero_le 1
  · rw [h]; exact Nat.zero_le 1
  · rw [he]; exact thresholdPhase_countKey _ _ _ _

lemma tick_event_not_fired {c : Bool} {d : Int} {e : Option ℚ} {now : Int}
    {s : SchedState} {k : String}
    (h : AlertEvent.threshold k ∈ (tick c d e now s).2) : k ∉ s.fired := by
  rcases tick_threshold_branch c d e now s with (hh | hh) | ⟨-, he⟩
  · rw [hh] at h; simp at h
  · rw [hh] at h; simp at h
  · rw [he] at h; exact thresholdPhase_event_not_fired h

lemma tick_event_fired {c : Bool} {d : Int} {e : Option ℚ} {now : Int}
    {s : SchedState} {k : String}
    (h : AlertEvent.threshold k ∈ (tick c d e now s).2) :
    k ∈ (tick c d e now s).1.fired := by
  rcases tick_threshold_branch c d e now s with (hh | hh) | ⟨hf, he⟩
  · rw [hh] at h; simp at h
  · rw [hh] at h; simp at h
  · rw [he] at h; rw [hf]; exact thresholdPhase_event_fired h

lemma tick_fired_mono {c : Bool} {d : Int} {e : Option ℚ} {now : Int}
    {s : SchedState} {k : String}
    (hc : tickClears c d e now s = false) (hk : k ∈ s.fired) :
    k ∈ (tick c d e now s).1.fired := by
  have hcc : c = false := by
    cases c
    · rfl
    · simp [tickClears] at hc
  subst hcc
  have hq : ¬(s.prevPriority ≠ calculateLocalPriority (some d) e now ∧
      calculateLocalPriority (some d) e now ≠ Tier.critical) := by
    rintro ⟨hp, hq2⟩
    simp [tickClears, hp, hq2] at hc
  unfold tick
  simp only [Bool.false_eq_true, if_false]
  rw [if_neg hq]
  by_cases hl : calculateLocalPriority (some d) e now ≠ Tier.critical
  · rw [if_pos hl]; exact hk
  · rw [if_neg hl]
    by_cases ha : (decide (s.prevPriority ≠ calculateLocalPriority (some d) e now) &&
        ((decide (s.prevPriority = Tier.safe) &&
          decide (calculateLocalPriority (some d) e now = Tier.warning)) ||
         (decide (s.prevPriority ≠ Tier.critical) &&
          decide (calculateLocalPriority (some d) e now = Tier.critical)))) = true
    · rw [if_pos ha]; exact hk
    · rw [if_neg ha]; exact thresholdPhase_fired_mono _ _ _ _ hk

lemma runSched_cons (c : Bool) (d : Int) (e : Option ℚ) (s : SchedState)
    (t : Int) (ts : List Int) :
    runSched c d e s (t :: ts) =
      ((runSched c d e (tick c d e t s).1 ts).1,
       (tick c d e t s).2 ++ (runSched c d e (tick c d e t s).1 ts).2) := rfl

lemma runSched_countKey_zero {d : Int} {e : Option ℚ} {ts : List Int}
    {s : SchedState} {k : String}
    (h : noClearRun false d e ts s = true) (hk : k ∈ s.fired) :
    countKey k (runSched false d e s ts).2 = 0 := by
  induction ts generalizing s with
  | nil => rfl
  | cons t ts ih =>
    simp only [noClearRun, Bool.and_eq_true, Bool.not_eq_true'] at h
    obtain ⟨hc, hrest⟩ := h
    rw [runSched_cons]
    simp only []
    rw [countKey_append]
    have h1 : countKey k (tick false d e t s).2 = 0 :=
      countKey_eq_zero_of_not_mem fun hm => tick_event_not_fired hm hk
    have h2 : countKey k (runSched false d e (tick false d e t s).1 ts).2 = 0 :=
      ih hrest (tick_fired_mono hc hk)
    omega

/-- C1 of CLAIMS.json. For a fixed task lifecycle (one deadline, one
estimate, never completed) in which no tick clears the fired-threshold-key
set (no completion and no tier change to a non-CRITICAL tier), every
threshold key - each of the six pre-deadline keys, the one-shot deadline-hit
key, and the three post-deadline keys - fires at most one alert event over
the whole sequence of ticks, with no constraint at all on the spacing (or
even ordering) of the tick instants. -/
theorem threshold_at_most_once (d : Int) (e : Option ℚ) (s : SchedState)
    (ts : List Int) (k : String)
    (h : noClearRun false d e ts s = true) :
    countKey k (runSched false d e s ts).2 ≤ 1 := by
  induction ts generalizing s with
  | nil => exact Nat.zero_le 1
  | cons t ts ih =>
    simp only [noClearRun, Bool.and_eq_true, Bool.not_eq_true'] at h
    obtain ⟨hc, hrest⟩ := h
    rw [runSched_cons]
    simp only []
    rw [countKey_append]
    by_cases hmem : AlertEvent.threshold k ∈ (tick false d e t s).2
    · have h1 := tick_countKey_le_one false d e t s k
      have h2 : countKey k (runSched false d e (tick false d e t s).1 ts).2 = 0 :=
        runSched_countKey_zero hrest (tick_event_fired hmem)
      omega
    · have h1 : countKey k (tick false d e t s).2 = 0 :=
        countKey_eq_zero_of_not_mem hmem
      have h2 := ih (tick false d e t s).1 hrest
      omega

end NanoLab

namespace NanoLab

/-- Witness for C1 at a concrete lifecycle: deadline 6h after mount, a tick
30 minutes before the deadline (firing pre-30m) and a tick one hour after it
(firing post-1h, a 90-minute gap that skipped the deadline instant); the run
never clears and pre-30m fires exactly once. -/
theorem threshold_at_most_once_witness :
    noClearRun false 21600000 none [19800000, 25200000]
      ⟨Tier.critical, some 21600000, []⟩ = true ∧
    countKey "pre-30m" (runSched false 21600000 none
      ⟨Tier.critical, some 21600000, []⟩ [19800000, 25200000]).2 ≤ 1 := by
  have c1 : calculateLocalPriority (some 21600000) none 19800000
      = Tier.critical := by
    rw [calculateLocalPriority_some]; norm_num [remainingHoursOf, HOUR_MS]
  have c2 : calculateLocalPriority (some 21600000) none 25200000
      = Tier.critical := by
    rw [calculateLocalPriority_some]; norm_num [remainingHoursOf, HOUR_MS]
  have hrun : noClearRun false 21600000 none [19800000, 25200000]
      ⟨Tier.critical, some 21600000, []⟩ = true := by
    simp [noClearRun, tickClears, tick, thresholdPhase, preScan, postScan,
      prevPositiveB, c1, c2, PRE_DEADLINE_THRESHOLDS_ASC,
      POST_DEADLINE_THRESHOLDS_ASC, HALF_HOUR_MS, HOUR_MS]
  exact ⟨hrun,
    threshold_at_most_once 21600000 none ⟨Tier.critical, some 21600000, []⟩
      [19800000, 25200000] "pre-30m" hrun⟩

/-! Claims about the events of a single tick. -/

lemma tick_events_shape (c : Bool) (d : Int) (e : Option ℚ) (now : Int)
    (s : SchedState) :
    (tick c d e now s).2 = [] ∨
    (tick c d e now s).2 = [.tierTransition] ∨
    (∃ k, (tick c d e now s).2 = [.threshold k]) ∨
    (∃ k, k ≠ "deadline-hit" ∧ d - now = 0 ∧
      (tick c d e now s).2 = [.threshold k, .threshold "deadline-hit"]) := by
  rcases tick_threshold_branch c d e now s with (h | h) | ⟨-, he⟩
  · exact Or.inl h
  · exact Or.inr (Or.inl h)
  · rcases thresholdPhase_shape s.prevRemaining (d - now) s.fired with
      hs | ⟨k, -, hs⟩ | ⟨k, -, hkd, -, hd0, hs⟩
    · left; rw [he, hs]
    · right; right; left
      exact ⟨k, by rw [he, hs]⟩
    · right; right; right
      exact ⟨k, hkd, hd0, by rw [he, hs]⟩

/-- C4 counterexample. A tick landing exactly on the deadline (diff = 0),
with the previous remaining time at 2 hours, emits TWO alert events in that
single tick: the ascending pre-deadline scan fires pre-30m, and the
deadline-hit check - which is independent of whether the scan just fired -
fires as well, contradicting the claimed at-most-one-alert-per-tick bound. -/
theorem single_tick_alert_counterexample :
    (tick false 0 none 0 ⟨Tier.critical, some 7200000, []⟩).2
      = [AlertEvent.threshold "pre-30m", AlertEvent.threshold "deadline-hit"] ∧
    ¬((tick false 0 none 0 ⟨Tier.critical, some 7200000, []⟩).2.length ≤ 1) := by
  have c0 : calculateLocalPriority (some 0) none 0 = Tier.critical := by
    rw [calculateLocalPriority_some]; norm_num [remainingHoursOf, HOUR_MS]
  have h : (tick false 0 none 0 ⟨Tier.critical, some 7200000, []⟩).2
      = [AlertEvent.threshold "pre-30m", AlertEvent.threshold "deadline-hit"] := by
    simp [tick, c0, thresholdPhase, preScan, prevPositiveB,
      PRE_DEADLINE_THRESHOLDS_ASC, HALF_HOUR_MS, HOUR_MS]
  refine ⟨h, by rw [h]; simp⟩

/-- C4 amended. On every single tick of one task: if a tier-transition alert
fired this tick, it is the only event of the tick (threshold evaluation is
skipped); a tick whose diff is nonzero emits at most one alert event, even
across a long gap that skipped several thresholds (the ascending scan fires
only the first unfired matching threshold and stops); but a tick landing
exactly on the deadline (diff = 0) can emit two events - one pre-deadline
threshold plus the independent deadline-hit - so the per-tick bound is two,
not one. -/
theorem single_tick_alert_bound :
    (∀ c d e now s, AlertEvent.tierTransition ∈ (tick c d e now s).2 →
      (tick c d e now s).2 = [.tierTransition]) ∧
    (∀ c d e now s, (tick c d e now s).2.length ≤ 2) ∧
    (∀ (c : Bool) (d : Int) (e : Option ℚ) (now : Int) (s : SchedState),
      d - now ≠ 0 → (tick c d e now s).2.length ≤ 1) ∧
    (∀ c d e now s, (tick c d e now s).2.length = 2 →
      d - now = 0 ∧ ∃ k, k ≠ "deadline-hit" ∧
        (tick c d e now s).2
          = [.threshold k, .threshold "deadline-hit"]) := by
  refine ⟨?_, ?_, ?_, ?_⟩
  · intro c d e now s hmem
    rcases tick_events_shape c d e now s with h | h | ⟨k, h⟩ | ⟨k, -, -, h⟩
    · rw [h] at hmem; simp at hmem
    · exact h
    · rw [h] at hmem; simp at hmem
    · rw [h] at hmem; simp at hmem
  · intro c d e now s
    rcases tick_events_shape c d e now s with h | h | ⟨k, h⟩ | ⟨k, -, -, h⟩ <;>
        rw [h]
    · exact Nat.zero_le 2
    · exact Nat.le_of_lt Nat.one_lt_two
    · exact Nat.le_of_lt Nat.one_lt_two
    · exact Nat.le_refl 2
  · intro c d e now s hd
    rcases tick_events_shape c d e now s with h | h | ⟨k, h⟩ | ⟨k, -, hd0, h⟩
    · rw [h]; exact Nat.zero_le 1
    · rw [h]; exact Nat.le_refl 1
    · rw [h]; exact Nat.le_refl 1
    · exact absurd hd0 hd
  · intro c d e now s hlen
    rcases tick_events_shape c d e now s with h | h | ⟨k, h⟩ | ⟨k, hkd, hd0, h⟩
    · rw [h] at hlen; simp at hlen
    · rw [h] at hlen; simp at hlen
    · rw [h] at hlen; simp at hlen
    · exact ⟨hd0, k, hkd, h⟩

/-- Witness for the amended C4 theorem: a concrete pre-deadline tick with
nonzero diff obeys the one-event bound. -/
theorem single_tick_alert_bound_witness :
    (tick false 21600000 none 19800000
      ⟨Tier.critical, some 21600000, []⟩).2.length ≤ 1 ∧
    (21600000 : Int) - 19800000 ≠ 0 :=
  ⟨single_tick_alert_bound.2.2.1 false 21600000 none 19800000
      ⟨Tier.critical, some 21600000, []⟩ (by decide),
   by decide⟩

/-- C7 of CLAIMS.json. A tick on a completed task emits no alert event; its
only state effect is resetting the fired-threshold-key set and recording the
current diff as the previous remaining time, and a whole run of ticks on a
task that stays completed emits no event at all. -/
theorem completed_tick_silent :
    (∀ (d : Int) (e : Option ℚ) (now : Int) (s : SchedState),
      tick true d e now s =
        ({ prevPriority := s.prevPriority, prevRemaining := some (d - now),
           fired := [] }, [])) ∧
    (∀ (d : Int) (e : Option ℚ) (ts : List Int) (s : SchedState),
      (runSched true d e s ts).2 = ([] : List AlertEvent)) := by
  constructor
  · intro d e now s
    rfl
  · intro d e ts
    induction ts with
    | nil => intro s; rfl
    | cons t ts ih => intro s; exact ih (tick true d e t s).1

end NanoLab

namespace NanoLab

lemma flush_jobDead {enabled : Bool} {s : SpeechState} {n : Nat}
    (h : JobDead n s) : JobDead n (flushSpeechQueue enabled s) := by
  unfold flushSpeechQueue
  by_cases hc : enabled = false ∨ s.speaking = true
  · rw [if_pos hc]; exact h
  · rw [if_neg hc]
    cases hq : s.queue with
    | nil => exact h
    | cons j rest =>
      obtain ⟨hqd, hifd, hres, hrej⟩ := h
      rw [hq] at hqd
      refine ⟨?_, ?_, hres, hrej⟩
      · intro j2 hj2
        exact hqd j2 (List.mem_cons_of_mem _ hj2)
      · intro hmem
        rcases List.mem_append.mp hmem with hmem | hmem
        · exact hifd hmem
        · have hnj : n = j.jid := by simpa using hmem
          exact hqd j (List.mem_cons_self _ _) hnj.symm

lemma speak_jobDead {enabled : Bool} {j : SpeechJob} {intr : Bool}
    {s : SpeechState} {n : Nat} (hj : j.jid ≠ n) (h : JobDead n s) :
    JobDead n (handleSpeak enabled j intr s).1 := by
  unfold handleSpeak
  by_cases hg : enabled = false ∨ j.message = ""
  · rw [if_pos hg]; exact h
  · rw [if_neg hg]
    obtain ⟨hqd, hifd, hres, hrej⟩ := h
    cases hintr : intr with
    | false =>
      simp only [if_neg (by simp : ¬(false = true))]
      refine flush_jobDead ⟨?_, hifd, hres, hrej⟩
      intro j2 hj2
      rcases List.mem_append.mp hj2 with hm | hm
      · exact hqd j2 hm
      · rw [show j2 = j by simpa using hm]
        exact hj
    | true =>
      simp only [if_pos rfl]
      cases haud : s.audioRef with
      | some a =>
        refine flush_jobDead ⟨?_, ?_, hres, hrej⟩
        · intro j2 hj2
          rw [show j2 = j by simpa using hj2]
          exact hj
        · intro hmem
          exact hifd (List.mem_of_mem_erase (by simpa using hmem))
      | none =>
        refine flush_jobDead ⟨?_, hifd, hres, hrej⟩
        intro j2 hj2
        rw [show j2 = j by simpa using hj2]
        exact hj

lemma settle_jobDead {enabled : Bool} {jid : Nat} {ok : Bool}
    {s : SpeechState} {n : Nat} (hmem : jid ∈ s.inFlight)
    (h : JobDead n s) : JobDead n (settlePlayback enabled jid ok s) := by
  obtain ⟨hqd, hifd, hres, hrej⟩ := h
  have hjn : jid ≠ n := fun he => hifd (he ▸ hmem)
  have hd1 : JobDead n
      { s with
        inFlight := s.inFlight.erase jid,
        audioRef := none,
        resolved := if ok then s.resolved ++ [jid] else s.resolved,
        rejected := if ok then s.rejected else s.rejected ++ [jid],
        speaking := false } := by
    refine ⟨hqd, ?_, ?_, ?_⟩
    · intro hm
      exact hifd (List.mem_of_mem_erase hm)
    · cases ok with
      | true =>
        intro hm
        have hm2 : n ∈ s.resolved ∨ n = jid := by simpa using hm
        rcases hm2 with hm2 | hm2
        · exact hres hm2
        · exact hjn hm2.symm
      | false => exact hres
    · cases ok with
      | true => exact hrej
      | false =>
        intro hm
        have hm2 : n ∈ s.rejected ∨ n = jid := by simpa using hm
        rcases hm2 with hm2 | hm2
        · exact hrej hm2
        · exact hjn hm2.symm
  unfold settlePlayback
  by_cases hq : s.queue.isEmpty = true
  · rw [if_pos hq]; exact hd1
  · rw [if_neg hq]; exact flush_jobDead hd1

lemma qstepAvoid_jobDead {enabled : Bool} {n : Nat} {s t : SpeechState}
    (hstep : QStepAvoid enabled n s t) (h : JobDead n s) : JobDead n t := by
  cases hstep with
  | speak j intr hj => exact speak_jobDead hj h
  | settle jid ok hmem => exact settle_jobDead hmem h

/-- C6 of CLAIMS.json. Enqueuing J4 with interrupt while J1 is playing and
J2, J3 are pending: J1's playback is stopped, the pending queue with J2 and
J3 is discarded, J4 starts next, and no promise has settled; moreover a
discarded job stays dead - in any state reached by further steps that do not
reuse its id, it is still neither resolved nor rejected. -/
theorem interrupt_discards_pending :
    (c6s4.stopped = [1] ∧ c6s4.started = [1, 4] ∧ c6s4.inFlight = [4] ∧
     c6s4.audioRef = some 4 ∧ c6s4.queue = [] ∧
     c6s4.resolved = [] ∧ c6s4.rejected = [] ∧
     JobDead 2 c6s4 ∧ JobDead 3 c6s4) ∧
    (∀ (enabled : Bool) (n : Nat) (s t : SpeechState),
      Relation.ReflTransGen (QStepAvoid enabled n) s t →
      JobDead n s → JobDead n t) := by
  constructor
  · unfold JobDead
    decide
  · intro enabled n s t hreach hdead
    induction hreach with
    | refl => exact hdead
    | tail hsteps hstep ih => exact qstepAvoid_jobDead hstep ih

/-- Witness for C6: after J4's settlement (a step that does not reuse id 2),
J2 is still unsettled. -/
theorem interrupt_discards_pending_witness :
    JobDead 2 (settlePlayback true 4 true c6s4) := by
  have hstep : QStepAvoid true 2 c6s4 (settlePlayback true 4 true c6s4) :=
    QStepAvoid.settle c6s4 4 true (by decide)
  exact interrupt_discards_pending.2 true 2 c6s4 _
    (Relation.ReflTransGen.single hstep)
    interrupt_discards_pending.1.2.2.2.2.2.2.2.1

/-- C8 of CLAIMS.json. When the playback of the in-flight job fails, exactly
that job's promise is rejected (nothing is resolved), the queue state stays
consistent, and processing is unblocked: with pending jobs the next one is
dequeued and starts playing immediately, with an empty queue the state
returns to idle bookkeeping (not speaking, nothing in flight). -/
theorem playback_failure_unblocks :
    (∀ (s : SpeechState) (jid : Nat),
      s.inFlight = [jid] → s.queue = [] →
      settlePlayback true jid false s =
        { s with
          inFlight := [],
          audioRef := none,
          rejected := s.rejected ++ [jid],
          speaking := false }) ∧
    (∀ (s : SpeechState) (jid : Nat) (k : SpeechJob) (rest : List SpeechJob),
      s.inFlight = [jid] → s.queue = k :: rest → s.speaking = true →
      (settlePlayback true jid false s).rejected = s.rejected ++ [jid] ∧
      (settlePlayback true jid false s).resolved = s.resolved ∧
      (settlePlayback true jid false s).queue = rest ∧
      (settlePlayback true jid false s).speaking = true ∧
      (settlePlayback true jid false s).inFlight = [k.jid] ∧
      (settlePlayback true jid false s).started = s.started ++ [k.jid]) := by
  constructor
  · intro s jid hif hq
    unfold settlePlayback
    rw [if_pos (by rw [hq]; rfl)]
    simp [hif]
  · intro s jid k rest hif hq hsp
    unfold settlePlayback
    rw [if_neg (by rw [hq]; simp)]
    unfold flushSpeechQueue
    rw [if_neg (by simp)]
    simp only [hq, hif]
    simp [List.erase_cons_head]

/-- Witness for C8 at the concrete scenario state: J1 in flight with J2, J3
pending; J1's playback fails, J1 is rejected and J2 starts. -/
theorem playback_failure_unblocks_witness :
    (settlePlayback true 1 false c5s3).rejected = [1] ∧
    (settlePlayback true 1 false c5s3).inFlight = [2] ∧
    (settlePlayback true 1 false c5s3).resolved = [] := by
  have h := playback_failure_unblocks.2 c5s3 1 (mkJob 2) [mkJob 3]
    (by decide) (by decide) (by decide)
  refine ⟨?_, ?_, ?_⟩
  · rw [h.1]; decide
  · rw [h.2.2.2.2.1]; decide
  · rw [h.2.1]; decide

/-- C10 of CLAIMS.json (implicit). A call to the speech enqueue operation
while speech is disabled, or with an empty message, returns the
already-resolved result immediately and leaves the entire queue state -
pending queue, cache, speaking flag, in-flight playback - unchanged. -/
theorem disabled_speak_noop :
    ∀ (enabled : Bool) (j : SpeechJob) (intr : Bool) (s : SpeechState),
      enabled = false ∨ j.message = "" →
      handleSpeak enabled j intr s = (s, true) := by
  intro enabled j intr s h
  unfold handleSpeak
  rw [if_pos h]

/-- Witness for C10: a disabled call and an empty-message call on concrete
states change nothing. -/
theorem disabled_speak_noop_witness :
    handleSpeak false (mkJob 1) true c5s3 = (c5s3, true) ∧
    handleSpeak true ⟨9, "", "st"⟩ false idleState = (idleState, true) :=
  ⟨disabled_speak_noop false (mkJob 1) true c5s3 (Or.inl rfl),
   disabled_speak_noop true ⟨9, "", "st"⟩ false idleState (Or.inr rfl)⟩

/-! The serialization claim, settled on the fine model. -/

lemma flushFine_inv {enabled : Bool} {s : SpeechFineState} (h : FineInv s) :
    FineInv (flushFine enabled s) := by
  unfold flushFine
  by_cases hc : enabled = false ∨ s.speaking = true
  · rw [if_pos hc]; exact h
  · rw [if_neg hc]
    push_neg at hc
    have hsp : s.speaking = false := by
      cases hsv : s.speaking
      · rfl
      · exact absurd hsv hc.2
    obtain ⟨hfe, hpe⟩ := h.1 hsp
    split
    · exact h
    · next x j rest heq =>
      split
      · constructor
        · intro hfalse; simp at hfalse
        · intro _
          right
          refine ⟨j.jid, ?_, hfe⟩
          show s.playing ++ [j.jid] = [j.jid]
          rw [hpe]; rfl
      · constructor
        · intro hfalse; simp at hfalse
        · intro _
          left
          refine ⟨j, ?_, hpe⟩
          show s.fetching ++ [j] = [j]
          rw [hfe]; rfl

lemma speakFine_seq_inv {enabled : Bool} {j : SpeechJob} {s : SpeechFineState}
    (h : FineInv s) : FineInv (speakFine enabled j false s).1 := by
  unfold speakFine
  by_cases hg : enabled = false ∨ j.message = ""
  · rw [if_pos hg]; exact h
  · rw [if_neg hg]
    simp only [Bool.false_eq_true, if_false]
    exact flushFine_inv h

lemma fetching_speaking {s : SpeechFineState} {j : SpeechJob} (h : FineInv s)
    (hmem : j ∈ s.fetching) : s.speaking = true := by
  cases hsv : s.speaking
  · rw [(h.1 hsv).1] at hmem; simp at hmem
  · rfl

lemma playing_speaking {s : SpeechFineState} {jid : Nat} (h : FineInv s)
    (hmem : jid ∈ s.playing) : s.speaking = true := by
  cases hsv : s.speaking
  · rw [(h.1 hsv).2] at hmem; simp at hmem
  · rfl

lemma fetchDoneFine_inv {j : SpeechJob} {s : SpeechFineState}
    (hmem : j ∈ s.fetching) (h : FineInv s) : FineInv (fetchDoneFine j s) := by
  have hsp := fetching_speaking h hmem
  rcases h.2 hsp with ⟨a, hfa, hpl⟩ | ⟨b, hpb, hfe⟩
  · have hja : j = a := by rw [hfa] at hmem; simpa using hmem
    constructor
    · intro hfalse
      have hf2 : s.speaking = false := hfalse
      rw [hsp] at hf2
      simp at hf2
    · intro _
      right
      refine ⟨j.jid, ?_, ?_⟩
      · show s.playing ++ [j.jid] = [j.jid]
        rw [hpl]; rfl
      · show s.fetching.erase j = []
        rw [hfa, hja]; simp
  · rw [hfe] at hmem; simp at hmem

lemma fetchFailFine_inv {enabled : Bool} {j : SpeechJob} {s : SpeechFineState}
    (hmem : j ∈ s.fetching) (h : FineInv s) :
    FineInv (fetchFailFine enabled j s) := by
  have hsp := fetching_speaking h hmem
  rcases h.2 hsp with ⟨a, hfa, hpl⟩ | ⟨b, hpb, hfe⟩
  · have hja : j = a := by rw [hfa] at hmem; simpa using hmem
    have hfe2 : s.fetching.erase j = [] := by rw [hfa, hja]; simp
    have hs1 : FineInv { s with
        fetching := s.fetching.erase j,
        rejected := s.rejected ++ [j.jid],
        speaking := false } := by
      constructor
      · intro _
        exact ⟨hfe2, hpl⟩
      · intro hfalse
        simp at hfalse
    unfold fetchFailFine
    by_cases hq : s.queue.isEmpty = true
    · rw [if_pos hq]; exact hs1
    · rw [if_neg hq]; exact flushFine_inv hs1
  · rw [hfe] at hmem; simp at hmem

lemma playbackEndFine_inv {enabled : Bool} {jid : Nat} {ok : Bool}
    {s : SpeechFineState} (hmem : jid ∈ s.playing) (h : FineInv s) :
    FineInv (playbackEndFine enabled jid ok s) := by
  have hsp := playing_speaking h hmem
  rcases h.2 hsp with ⟨a, hfa, hpl⟩ | ⟨b, hpb, hfe⟩
  · rw [hpl] at hmem; simp at hmem
  · have hjb : jid = b := by rw [hpb] at hmem; simpa using hmem
    have hpe2 : s.playing.erase jid = [] := by rw [hpb, hjb]; simp
    have hs1 : FineInv { s with
        playing := s.playing.erase jid,
        audioRef := none,
        resolved := if ok then s.resolved ++ [jid] else s.resolved,
        rejected := if ok then s.rejected else s.rejected ++ [jid],
        speaking := false } := by
      constructor
      · intro _
        exact ⟨hfe, hpe2⟩
      · intro hfalse
        simp at hfalse
    unfold playbackEndFine
    by_cases hq : s.queue.isEmpty = true
    · rw [if_pos hq]; exact hs1
    · rw [if_neg hq]; exact flushFine_inv hs1

lemma fineStepSeq_inv {enabled : Bool} {s t : SpeechFineState}
    (hstep : FineStepSeq enabled s t) (h : FineInv s) : FineInv t := by
  cases hstep with
  | speak j => exact speakFine_seq_inv h
  | fetchDone j hmem => exact fetchDoneFine_inv hmem h
  | fetchFail j hmem => exact fetchFailFine_inv hmem h
  | playbackEnd jid ok hmem => exact playbackEndFine_inv hmem h

lemma fineReach_inv {enabled : Bool} {s : SpeechFineState}
    (h : Relation.ReflTransGen (FineStepSeq enabled) idleFine s) :
    FineInv s := by
  induction h with
  | refl => exact ⟨fun _ => ⟨rfl, rfl⟩, fun ht => by simp [idleFine] at ht⟩
  | tail hsteps hstep ih => exact fineStepSeq_inv hstep ih

/-- C5 counterexample. The single-flight invariant is false of the program:
from the idle queue, enqueue J1 (its flush invocation suspends at the
synthesis fetch, audioRef still null), then enqueue J4 with interrupt - the
pause finds audioRef null and stops nothing, isSpeaking is reset, and J4's
invocation starts too; when both fetches resolve, both audios play. The
resulting state is reachable and has two playback attempts in flight. -/
theorem speech_single_flight_counterexample :
    Relation.ReflTransGen (FineStep true) idleFine cx4 ∧
    cx4.playing = [1, 4] ∧ cx4.playing.length = 2 ∧
    cx4.started = [1, 4] ∧ cx4.stopped = [] := by
  refine ⟨?_, by decide⟩
  have s1 : FineStep true idleFine f1 := FineStep.speak idleFine fJ1 false
  have s2 : FineStep true f1 cx2 := FineStep.speak f1 fJ4 true
  have s3 : FineStep true cx2 cx3 := FineStep.fetchDone cx2 fJ1 (by decide)
  have s4 : FineStep true cx3 cx4 := FineStep.fetchDone cx3 fJ4 (by decide)
  exact Relation.ReflTransGen.tail
    (Relation.ReflTransGen.tail
      (Relation.ReflTransGen.tail (Relation.ReflTransGen.single s1) s2) s3) s4

/-- C5 amended. In the interrupt-free fragment of the speech queue (every
enqueue with interrupt = false, as the live dispatcher's onSpeak calls are),
the queue serializes: at every reachable state at most one flush invocation
is in flight - suspended in synthesis or playing - and none when not
speaking; and on the concrete scenario J1, J2, J3 enqueued on an idle queue,
playback is strictly sequential: while J1 plays the others only queue, J2
enters synthesis exactly at J1's settlement and starts playing only when its
fetch resolves, J3 likewise after J2, ending with all three resolved in
order. The unrestricted claim fails: an interrupt landing in a synthesis
window yields two concurrent playbacks (see the counterexample). -/
theorem speech_queue_serialization_amended :
    (∀ (enabled : Bool) (s : SpeechFineState),
      Relation.ReflTransGen (FineStepSeq enabled) idleFine s →
      s.fetching.length + s.playing.length ≤ 1 ∧
      (s.speaking = false → s.fetching = [] ∧ s.playing = [])) ∧
    (f4.playing = [1] ∧ f4.started = [1] ∧ f4.queue = [fJ2, fJ3] ∧
     f5.resolved = [1] ∧ f5.started = [1] ∧ f5.fetching = [fJ2] ∧
       f5.playing = [] ∧
     f6.playing = [2] ∧ f6.started = [1, 2] ∧
     f7.resolved = [1, 2] ∧ f7.fetching = [fJ3] ∧ f7.playing = [] ∧
     f8.playing = [3] ∧ f8.started = [1, 2, 3] ∧
     f9.resolved = [1, 2, 3] ∧ f9.playing = [] ∧ f9.fetching = [] ∧
       f9.queue = []) := by
  constructor
  · intro enabled s hreach
    have h := fineReach_inv hreach
    constructor
    · cases hsv : s.speaking
      · obtain ⟨hf, hp⟩ := h.1 hsv
        rw [hf, hp]
        exact Nat.zero_le 1
      · rcases h.2 hsv with ⟨a, hfa, hpl⟩ | ⟨b, hpb, hfe⟩
        · rw [hfa, hpl]
          exact Nat.le_refl 1
        · rw [hpb, hfe]
          exact Nat.le_refl 1
    · exact h.1
  · decide

/-- Witness for the amended C5: the state with J1 playing and J2, J3 queued
is reachable in the interrupt-free fragment and satisfies the single-flight
bound. -/
theorem speech_queue_serialization_amended_witness :
    f4.fetching.length + f4.playing.length ≤ 1 ∧
    (f4.speaking = false → f4.fetching = [] ∧ f4.playing = []) := by
  have s1 : FineStepSeq true idleFine f1 := FineStepSeq.speak idleFine fJ1
  have s2 : FineStepSeq true f1 f2 := FineStepSeq.fetchDone f1 fJ1 (by decide)
  have s3 : FineStepSeq true f2 f3 := FineStepSeq.speak f2 fJ2
  have s4 : FineStepSeq true f3 f4 := FineStepSeq.speak f3 fJ3
  exact speech_queue_serialization_amended.1 true f4
    (Relation.ReflTransGen.tail
      (Relation.ReflTransGen.tail
        (Relation.ReflTransGen.tail (Relation.ReflTransGen.single s1) s2) s3)
      s4)

end NanoLab
